import Mathlib

/-!
Verification development for the Mixamo→MMD conversion pipeline
(`src/lib/fbx.ts`, `src/lib/retarget.ts`, and the VMD writer module).

The JavaScript `number` type is modelled by `ℝ`; IEEE-754 rounding, NaN
and infinities are not modelled except where a claim is about them (the
VMD writer's `isFinite` sanitisation, which is modelled by the sum type
`VF` below).  All definitions are transcribed from the TypeScript source;
the quaternion/vector helpers imported from the external `reze-engine`
library are modelled from the spec (standard Hamilton conventions), as
marked on each such definition.
-/

namespace MixamoMMD

/-- Quaternion with real components, matching the external `Quat` class
(fields `x y z w`).  Modelled from the spec: the engine's quaternion is a
standard Hamilton quaternion stored as (x, y, z, w). -/
@[ext]
structure QuatR where
  x : ℝ
  y : ℝ
  z : ℝ
  w : ℝ

/-- 3-vector with real components, matching the external `Vec3` class. -/
@[ext]
structure Vec3R where
  x : ℝ
  y : ℝ
  z : ℝ

/-- Modelled from the spec: Hamilton product `a · b` of the external
`Quat.multiply` (spec §4.4: `q' = q_l · q_source · q_r`, standard
composition conventions). -/
noncomputable def qmul (a b : QuatR) : QuatR :=
  { x := a.w * b.x + a.x * b.w + a.y * b.z - a.z * b.y
    y := a.w * b.y - a.x * b.z + a.y * b.w + a.z * b.x
    z := a.w * b.z + a.x * b.y - a.y * b.x + a.z * b.w
    w := a.w * b.w - a.x * b.x - a.y * b.y - a.z * b.z }

/-- Modelled from the spec: the external `Quat.conjugate` negates the
vector part. -/
noncomputable def qconj (q : QuatR) : QuatR :=
  { x := -q.x, y := -q.y, z := -q.z, w := q.w }

/-- Component-wise negation (`new Quat(-q.x, -q.y, -q.z, -q.w)`). -/
noncomputable def qneg (q : QuatR) : QuatR :=
  { x := -q.x, y := -q.y, z := -q.z, w := -q.w }

/-- 4-dimensional dot product of two quaternions, as written inline in
`generateQuaternions` / `slerp` / `interpolateQuat`. -/
noncomputable def qdot (a b : QuatR) : ℝ :=
  a.x * b.x + a.y * b.y + a.z * b.z + a.w * b.w

/-- Modelled from the spec: `Quat.identity()` is `(0, 0, 0, 1)`. -/
def qIdentity : QuatR := { x := 0, y := 0, z := 0, w := 1 }

/-- Modelled from the spec (§4.3): `Quat.fromAxisAngle(axis, θ)` is
`(sin(θ/2)·axis, cos(θ/2))`. -/
noncomputable def fromAxisAngle (ax ay az θ : ℝ) : QuatR :=
  { x := ax * Real.sin (θ / 2)
    y := ay * Real.sin (θ / 2)
    z := az * Real.sin (θ / 2)
    w := Real.cos (θ / 2) }

/-- Scalar multiple of a quaternion (used for normalisation). -/
noncomputable def qsmul (c : ℝ) (q : QuatR) : QuatR :=
  { x := c * q.x, y := c * q.y, z := c * q.z, w := c * q.w }

/-- Modelled from the spec: the external `Quat.normalize` divides by the
Euclidean norm (unit quaternions, §8). -/
noncomputable def qnormalize (q : QuatR) : QuatR :=
  let len := Real.sqrt (qdot q q)
  if 0 < len then qsmul (1 / len) q else q

/-! ## `src/lib/fbx.ts` — rotation-track assembly -/

/-- A per-axis animation curve: key times (seconds) and key values, as
assembled in `parseCurveNode` (`{ times, values }`). -/
structure Curve where
  times : List ℝ
  values : List ℝ

/-- `degToRad` (fbx.ts line 1207). -/
noncomputable def degToRad (degrees : ℝ) : ℝ := degrees * Real.pi / 180

/-- JavaScript `Math.round`: round half toward +∞, i.e. `⌊x + 1/2⌋`. -/
noncomputable def roundJS (x : ℝ) : ℤ := ⌊x + 1 / 2⌋

/-- `roundTime` (fbx.ts line 858): `Math.round(t * 1000000) / 1000000`. -/
noncomputable def roundTime (t : ℝ) : ℝ := (roundJS (t * 1000000) : ℝ) / 1000000

/-- JavaScript `Math.atan2 y x`, modelled by the standard piecewise
definition in terms of `Real.arctan`. -/
noncomputable def atan2 (y x : ℝ) : ℝ :=
  if 0 < x then Real.arctan (y / x)
  else if x < 0 ∧ 0 ≤ y then Real.arctan (y / x) + Real.pi
  else if x < 0 ∧ y < 0 then Real.arctan (y / x) - Real.pi
  else if x = 0 ∧ 0 < y then Real.pi / 2
  else if x = 0 ∧ y < 0 then -(Real.pi / 2)
  else 0

/-- `eulerToQuaternionZXY` (fbx.ts lines 1213–1227), transcribed
verbatim (arguments in the source order `z x y`). -/
noncomputable def eulerToQuaternionZXY (z x y : ℝ) : QuatR :=
  let cz := Real.cos (z / 2)
  let cx := Real.cos (x / 2)
  let cy := Real.cos (y / 2)
  let sz := Real.sin (z / 2)
  let sx := Real.sin (x / 2)
  let sy := Real.sin (y / 2)
  { x := sx * cy * cz - cx * sy * sz
    y := cx * sy * cz + sx * cy * sz
    z := cx * cy * sz - sx * sy * cz
    w := cx * cy * cz + sx * sy * sz }

/-- `eulerToQuaternionByOrder` (fbx.ts lines 1230–1234): identity unless
the order is `"ZXY"`. -/
noncomputable def eulerToQuaternionByOrder (x y z : ℝ) (order : String) : QuatR :=
  if order ≠ "ZXY" then qIdentity else eulerToQuaternionZXY z x y

/-- `slerp` (fbx.ts lines 1237–1281), transcribed verbatim. -/
noncomputable def slerp (q1 q2 : QuatR) (t : ℝ) : QuatR :=
  let d := qdot q1 q2
  let q2' := if d < 0 then qneg q2 else q2
  if 0.9995 < |d| then
    let r : QuatR :=
      { x := q1.x + (q2'.x - q1.x) * t
        y := q1.y + (q2'.y - q1.y) * t
        z := q1.z + (q2'.z - q1.z) * t
        w := q1.w + (q2'.w - q1.w) * t }
    let len := Real.sqrt (r.x * r.x + r.y * r.y + r.z * r.z + r.w * r.w)
    if 0 < len then { x := r.x / len, y := r.y / len, z := r.z / len, w := r.w / len }
    else r
  else
    let θ := Real.arccos |d|
    let sinθ := Real.sin θ
    let w1 := Real.sin ((1 - t) * θ) / sinθ
    let w2 := Real.sin (t * θ) / sinθ
    { x := w1 * q1.x + w2 * q2'.x
      y := w1 * q1.y + w2 * q2'.y
      z := w1 * q1.z + w2 * q2'.z
      w := w1 * q1.w + w2 * q2'.w }

/-- `quaternionToEuler` (fbx.ts lines 1283–1323), transcribed verbatim;
result is the Euler triple `(x, y, z)` in radians. -/
noncomputable def quaternionToEuler (q : QuatR) : ℝ × ℝ × ℝ :=
  let sinX := 2 * (q.y * q.z + q.w * q.x)
  if 0.9999 ≤ |sinX| then
    let rx := (if 0 ≤ sinX then 1 else -1) * (Real.pi / 2)
    let ry := atan2 (2 * (q.x * q.y + q.w * q.z)) (1 - 2 * (q.y * q.y + q.z * q.z))
    (rx, ry, 0)
  else
    let rx := Real.arcsin sinX
    let ry := atan2 (-(2 * (q.x * q.z - q.w * q.y))) (1 - 2 * (q.x * q.x + q.y * q.y))
    let rz := atan2 (-(2 * (q.x * q.y - q.w * q.z))) (1 - 2 * (q.x * q.x + q.z * q.z))
    (rx, ry, rz)

/-- The bracketing loop of `interpolateValue` (fbx.ts lines 778–784):
find `i` with `times[i] ≤ target ≤ times[i+1]` and lerp; if no bracket
is found, return the last value. -/
noncomputable def findBracket : List ℝ → List ℝ → ℝ → ℝ
  | t0 :: t1 :: ts, v0 :: v1 :: vs, target =>
      if t0 ≤ target ∧ target ≤ t1 then
        v0 + (v1 - v0) * ((target - t0) / (t1 - t0))
      else findBracket (t1 :: ts) (v1 :: vs) target
  | _, vs, _ => vs.getLastD 0

/-- `interpolateValue` (fbx.ts lines 768–785), transcribed verbatim
(the length-mismatch branch returns 0 as in the source). -/
noncomputable def interpolateValue (times values : List ℝ) (target : ℝ) : ℝ :=
  match times, values with
  | [], _ => 0
  | _, [] => 0
  | t0 :: _, v0 :: _ =>
      if times.length ≠ values.length then 0
      else if target ≤ t0 then v0
      else if times.getLastD 0 ≤ target then values.getLastD 0
      else findBracket times values target

/-- Insertion into a JS `Set` (keeps first-insertion order, ignores
duplicates), then materialised by `Array.from`. -/
noncomputable def addUnique (acc : List ℝ) (x : ℝ) : List ℝ :=
  if x ∈ acc then acc else acc ++ [x]

/-- Add every time of a list to the merged set after `roundTime`
(fbx.ts lines 859–862). -/
noncomputable def addRoundedTimes (acc : List ℝ) (ts : List ℝ) : List ℝ :=
  ts.foldl (fun a t => addUnique a (roundTime t)) acc

/-- Sorted insertion; `Array.prototype.sort((a, b) => a - b)` is
modelled by insertion sort (the merged time lists are duplicate-free, so
the ascending result is unique and any correct sort coincides). -/
noncomputable def insertSorted (x : ℝ) : List ℝ → List ℝ
  | [] => [x]
  | y :: t => if x ≤ y then x :: y :: t else y :: insertSorted x t

/-- Ascending numeric sort of the merged time set. -/
noncomputable def sortR (l : List ℝ) : List ℝ := l.foldr insertSorted []

/-- The merged, µs-rounded, ascending time line of the three axis curves
(fbx.ts lines 856–863). -/
noncomputable def mergedTimes (cx cy cz : Curve) : List ℝ :=
  sortR (addRoundedTimes (addRoundedTimes (addRoundedTimes [] cx.times) cy.times) cz.times)

/-- `isNaN` on the real model: `ℝ` has no NaN, so this is always false
(the `continue` guard of fbx.ts lines 890–893 never fires). -/
def isNaNr (_x : ℝ) : Bool := false

/-- The intermediate sample parameters of the slerp subdivision: the
loop `for (let t = step; t < 1; t += step)` with `step = 1/n` visits
exactly `k/n` for `k = 1, …, n−1` (exact arithmetic; float accumulation
drift is not modelled). -/
noncomputable def midParams (n : ℤ) : List ℝ :=
  (List.range (n.toNat - 1)).map (fun k => ((k + 1 : ℕ) : ℝ) / (n : ℝ))

/-- One step of the `interpolateRotations` main loop (fbx.ts lines
886–954): given the previous merged key `(t0, v0)` and the current one
`(t1, v1)` (degrees), emit the times and radian Euler values for this
segment. -/
noncomputable def rotationSegment (t0 : ℝ) (v0 : ℝ × ℝ × ℝ) (t1 : ℝ) (v1 : ℝ × ℝ × ℝ) :
    List ℝ × List ℝ :=
  if isNaNr v0.1 ∨ isNaNr v0.2.1 ∨ isNaNr v0.2.2 ∨
     isNaNr v1.1 ∨ isNaNr v1.2.1 ∨ isNaNr v1.2.2 then ([], [])
  else
    let a1 := |v1.1 - v0.1|
    let a2 := |v1.2.1 - v0.2.1|
    let a3 := |v1.2.2 - v0.2.2|
    if 180 ≤ a1 ∨ 180 ≤ a2 ∨ 180 ≤ a3 then
      let maxAbsSpan := max a1 (max a2 a3)
      let n : ℤ := ⌈maxAbsSpan / 180⌉
      let E1 := eulerToQuaternionByOrder (degToRad v0.1) (degToRad v0.2.1) (degToRad v0.2.2) "ZXY"
      let E2 := eulerToQuaternionByOrder (degToRad v1.1) (degToRad v1.2.1) (degToRad v1.2.2) "ZXY"
      let Q1 := E1
      let Q2 := if qdot E1 E2 < 0 then qneg E2 else E2
      let mids := (midParams n).map (fun t =>
        let Q := slerp Q1 Q2 t
        let E := quaternionToEuler Q
        (t0 + t * (t1 - t0), E))
      (mids.map Prod.fst ++ [t1],
       (mids.flatMap (fun p => [p.2.1, p.2.2.1, p.2.2.2])) ++
         [degToRad v1.1, degToRad v1.2.1, degToRad v1.2.2])
    else
      ([t1], [degToRad v1.1, degToRad v1.2.1, degToRad v1.2.2])

/-- The fold of `rotationSegment` over consecutive merged keys. -/
noncomputable def rotationLoop : (ℝ × (ℝ × ℝ × ℝ)) → List (ℝ × (ℝ × ℝ × ℝ)) → List ℝ × List ℝ
  | _, [] => ([], [])
  | (t0, v0), (t1, v1) :: rest =>
      let seg := rotationSegment t0 v0 t1 v1
      let tail := rotationLoop (t1, v1) rest
      (seg.1 ++ tail.1, seg.2 ++ tail.2)

/-- `interpolateRotations` (fbx.ts lines 852–957): merge the axis time
lines, sample each axis at every merged time, emit the first key
unchanged (converted to radians) and then each segment via
`rotationSegment`. -/
noncomputable def interpolateRotations (cx cy cz : Curve) : List ℝ × List ℝ :=
  let merged := mergedTimes cx cy cz
  let ivals := merged.map (fun t =>
    (interpolateValue cx.times cx.values t,
     interpolateValue cy.times cy.values t,
     interpolateValue cz.times cz.values t))
  match merged, ivals with
  | [], _ => ([], [])
  | _, [] => ([], [])
  | m0 :: mrest, iv0 :: ivrest =>
      let tail := rotationLoop (m0, iv0) (mrest.zip ivrest)
      (m0 :: tail.1,
       degToRad iv0.1 :: degToRad iv0.2.1 :: degToRad iv0.2.2 :: tail.2)

/-- Group a flat value list into consecutive triples (`values[i]`,
`values[i+1]`, `values[i+2]` of the loop at fbx.ts line 822). -/
def toTriples : List ℝ → List (ℝ × ℝ × ℝ)
  | a :: b :: c :: t => (a, b, c) :: toTriples t
  | _ => []

/-- One step of the quaternion-unrolling loop of `generateQuaternions`
(fbx.ts lines 832–842): convert the Euler triple and negate it when its
dot product with the previously pushed quaternion is negative. -/
noncomputable def unrollStep (acc : List QuatR) (e : ℝ × ℝ × ℝ) : List QuatR :=
  let q := eulerToQuaternionByOrder e.1 e.2.1 e.2.2 "ZXY"
  match acc.getLast? with
  | none => acc ++ [q]
  | some p => if qdot p q < 0 then acc ++ [qneg q] else acc ++ [q]

/-- `generateQuaternions` (fbx.ts lines 787–847): run
`interpolateRotations`, validate lengths, convert every Euler triple to
a quaternion and unroll. -/
noncomputable def generateQuaternions (cx cy cz : Curve) : List ℝ × List QuatR :=
  let ir := interpolateRotations cx cy cz
  let times := ir.1
  let values := ir.2
  if values.length % 3 ≠ 0 then ([], [])
  else if times.length ≠ values.length / 3 then ([], [])
  else (times, (toTriples values).foldl unrollStep [])

/-! ## `src/lib/retarget.ts` -/

/-- `BONE_MAP` (retarget.ts lines 4–57): Mixamo bone name → MMD bone
name, as a lookup function (`Record` access). -/
def boneMap : String → Option String
  | "Hips" => some "センター"
  | "Spine" => some "腰"
  | "Spine1" => some "上半身"
  | "Spine2" => some "上半身2"
  | "Neck" => some "首"
  | "Head" => some "頭"
  | "RightShoulder" => some "右肩"
  | "RightArm" => some "右腕"
  | "RightForeArm" => some "右ひじ"
  | "RightHand" => some "右手首"
  | "LeftShoulder" => some "左肩"
  | "LeftArm" => some "左腕"
  | "LeftForeArm" => some "左ひじ"
  | "LeftHand" => some "左手首"
  | "RightUpLeg" => some "右足"
  | "RightLeg" => some "右ひざ"
  | "RightFoot" => some "右足首"
  | "RightToeBase" => some "右足先EX"
  | "LeftUpLeg" => some "左足"
  | "LeftLeg" => some "左ひざ"
  | "LeftFoot" => some "左足首"
  | "LeftToeBase" => some "左足先EX"
  | "RightHandThumb1" => some "右親指１"
  | "RightHandThumb2" => some "右親指２"
  | "RightHandThumb3" => some "右親指３"
  | "RightHandIndex1" => some "右人指１"
  | "RightHandIndex2" => some "右人指２"
  | "RightHandIndex3" => some "右人指３"
  | "RightHandMiddle1" => some "右中指１"
  | "RightHandMiddle2" => some "右中指２"
  | "RightHandMiddle3" => some "右中指３"
  | "RightHandRing1" => some "右薬指１"
  | "RightHandRing2" => some "右薬指２"
  | "RightHandRing3" => some "右薬指３"
  | "RightHandPinky1" => some "右小指１"
  | "RightHandPinky2" => some "右小指２"
  | "RightHandPinky3" => some "右小指３"
  | "LeftHandThumb1" => some "左親指１"
  | "LeftHandThumb2" => some "左親指２"
  | "LeftHandThumb3" => some "左親指３"
  | "LeftHandIndex1" => some "左人指１"
  | "LeftHandIndex2" => some "左人指２"
  | "LeftHandIndex3" => some "左人指３"
  | "LeftHandMiddle1" => some "左中指１"
  | "LeftHandMiddle2" => some "左中指２"
  | "LeftHandMiddle3" => some "左中指３"
  | "LeftHandRing1" => some "左薬指１"
  | "LeftHandRing2" => some "左薬指２"
  | "LeftHandRing3" => some "左薬指３"
  | "LeftHandPinky1" => some "左小指１"
  | "LeftHandPinky2" => some "左小指２"
  | "LeftHandPinky3" => some "左小指３"
  | _ => none

/-- `MIXAMO_MATRIX_LOCAL` (retarget.ts lines 60–113): Mixamo bone name →
rest-orientation quaternion `q_a`. -/
noncomputable def mixamoMatrixLocal : String → Option QuatR
  | "Hips" => some ⟨0.0065, 0, 0, 0.99998⟩
  | "Spine" => some ⟨-0.0737, 0, 0, 0.9973⟩
  | "Spine1" => some ⟨-0.0737, 0, 0, 0.9973⟩
  | "Spine2" => some ⟨-0.0609, 0, 0, 0.9981⟩
  | "Neck" => some ⟨-0.0609, 0, 0, 0.9981⟩
  | "Head" => some ⟨-0.0609, 0, 0, 0.9981⟩
  | "RightShoulder" => some ⟨0.459, -0.5379, 0.5599, 0.4318⟩
  | "RightArm" => some ⟨0.5, -0.5, 0.5, 0.5⟩
  | "RightForeArm" => some ⟨0.5, -0.5, 0.5, 0.5⟩
  | "RightHand" => some ⟨0.5, -0.5, 0.5, 0.5⟩
  | "LeftShoulder" => some ⟨-0.459, -0.5379, 0.5599, -0.4318⟩
  | "LeftArm" => some ⟨0.5, 0.5, -0.5, 0.5⟩
  | "LeftForeArm" => some ⟨0.5, 0.5, -0.5, 0.5⟩
  | "LeftHand" => some ⟨0.5, 0.5, -0.5, 0.5⟩
  | "RightUpLeg" => some ⟨0, 0.0039, 0.99999, 0⟩
  | "RightLeg" => some ⟨0, -0.0342, 0.99942, 0⟩
  | "RightFoot" => some ⟨0, 0.4291, 0.90326, 0⟩
  | "RightToeBase" => some ⟨0, 0.7071, 0.7071, 0⟩
  | "LeftUpLeg" => some ⟨0, 0.0039, 0.99999, 0⟩
  | "LeftLeg" => some ⟨0, -0.0342, 0.99942, 0⟩
  | "LeftFoot" => some ⟨0, 0.4291, 0.90326, 0⟩
  | "LeftToeBase" => some ⟨0, 0.7071, 0.7071, 0⟩
  | "RightHandThumb1" => some ⟨0.5, -0.5, 0.5, 0.5⟩
  | "RightHandThumb2" => some ⟨0.5, -0.5, 0.5, 0.5⟩
  | "RightHandThumb3" => some ⟨0.5, -0.5, 0.5, 0.5⟩
  | "RightHandIndex1" => some ⟨0.5, -0.5, 0.5, 0.5⟩
  | "RightHandIndex2" => some ⟨0.5, -0.5, 0.5, 0.5⟩
  | "RightHandIndex3" => some ⟨0.5, -0.5, 0.5, 0.5⟩
  | "RightHandMiddle1" => some ⟨0.5, -0.5, 0.5, 0.5⟩
  | "RightHandMiddle2" => some ⟨0.5, -0.5, 0.5, 0.5⟩
  | "RightHandMiddle3" => some ⟨0.5, -0.5, 0.5, 0.5⟩
  | "RightHandRing1" => some ⟨0.5, -0.5, 0.5, 0.5⟩
  | "RightHandRing2" => some ⟨0.5, -0.5, 0.5, 0.5⟩
  | "RightHandRing3" => some ⟨0.5, -0.5, 0.5, 0.5⟩
  | "RightHandPinky1" => some ⟨0.5, -0.5, 0.5, 0.5⟩
  | "RightHandPinky2" => some ⟨0.5, -0.5, 0.5, 0.5⟩
  | "RightHandPinky3" => some ⟨0.5, -0.5, 0.5, 0.5⟩
  | "LeftHandThumb1" => some ⟨0.5, 0.5, -0.5, 0.5⟩
  | "LeftHandThumb2" => some ⟨0.5, 0.5, -0.5, 0.5⟩
  | "LeftHandThumb3" => some ⟨0.5, 0.5, -0.5, 0.5⟩
  | "LeftHandIndex1" => some ⟨0.5, 0.5, -0.5, 0.5⟩
  | "LeftHandIndex2" => some ⟨0.5, 0.5, -0.5, 0.5⟩
  | "LeftHandIndex3" => some ⟨0.5, 0.5, -0.5, 0.5⟩
  | "LeftHandMiddle1" => some ⟨0.5, 0.5, -0.5, 0.5⟩
  | "LeftHandMiddle2" => some ⟨0.5, 0.5, -0.5, 0.5⟩
  | "LeftHandMiddle3" => some ⟨0.5, 0.5, -0.5, 0.5⟩
  | "LeftHandRing1" => some ⟨0.5, 0.5, -0.5, 0.5⟩
  | "LeftHandRing2" => some ⟨0.5, 0.5, -0.5, 0.5⟩
  | "LeftHandRing3" => some ⟨0.5, 0.5, -0.5, 0.5⟩
  | "LeftHandPinky1" => some ⟨0.5, 0.5, -0.5, 0.5⟩
  | "LeftHandPinky2" => some ⟨0.5, 0.5, -0.5, 0.5⟩
  | "LeftHandPinky3" => some ⟨0.5, 0.5, -0.5, 0.5⟩
  | _ => none

/-- `ROTATE_WAB_L_SET` (retarget.ts lines 115–122). -/
def rotateWabLSet : List String :=
  ["LeftArm", "LeftForeArm",
   "LeftHandThumb1", "LeftHandThumb2", "LeftHandThumb3",
   "LeftHandIndex1", "LeftHandIndex2", "LeftHandIndex3",
   "LeftHandMiddle1", "LeftHandMiddle2", "LeftHandMiddle3",
   "LeftHandRing1", "LeftHandRing2", "LeftHandRing3",
   "LeftHandPinky1", "LeftHandPinky2", "LeftHandPinky3"]

/-- `ROTATE_WAB_R_SET` (retarget.ts lines 124–131). -/
def rotateWabRSet : List String :=
  ["RightArm", "RightForeArm",
   "RightHandThumb1", "RightHandThumb2", "RightHandThumb3",
   "RightHandIndex1", "RightHandIndex2", "RightHandIndex3",
   "RightHandMiddle1", "RightHandMiddle2", "RightHandMiddle3",
   "RightHandRing1", "RightHandRing2", "RightHandRing3",
   "RightHandPinky1", "RightHandPinky2", "RightHandPinky3"]

/-- `ROTATE_WBA_L_SET` (retarget.ts lines 133–140); note that it does
NOT contain `LeftArm`. -/
def rotateWbaLSet : List String :=
  ["LeftForeArm",
   "LeftHandThumb1", "LeftHandThumb2", "LeftHandThumb3",
   "LeftHandIndex1", "LeftHandIndex2", "LeftHandIndex3",
   "LeftHandMiddle1", "LeftHandMiddle2", "LeftHandMiddle3",
   "LeftHandRing1", "LeftHandRing2", "LeftHandRing3",
   "LeftHandPinky1", "LeftHandPinky2", "LeftHandPinky3"]

/-- `ROTATE_WBA_R_SET` (retarget.ts lines 142–149); note that it does
NOT contain `RightArm`. -/
def rotateWbaRSet : List String :=
  ["RightForeArm",
   "RightHandThumb1", "RightHandThumb2", "RightHandThumb3",
   "RightHandIndex1", "RightHandIndex2", "RightHandIndex3",
   "RightHandMiddle1", "RightHandMiddle2", "RightHandMiddle3",
   "RightHandRing1", "RightHandRing2", "RightHandRing3",
   "RightHandPinky1", "RightHandPinky2", "RightHandPinky3"]

/-- `ARM_ANGLE` (retarget.ts line 151): `35 * π / 180`. -/
noncomputable def armAngle : ℝ := 35 * Real.pi / 180

/-- `Q_ARM_L` (retarget.ts line 152): `rot(Z, +35°)`. -/
noncomputable def qArmL : QuatR := fromAxisAngle 0 0 1 armAngle

/-- `Q_ARM_R` (retarget.ts line 153): `rot(Z, −35°)`. -/
noncomputable def qArmR : QuatR := fromAxisAngle 0 0 1 (-armAngle)

/-- The cached per-bone pair `(q_l, q_r)` (retarget.ts lines 155–158). -/
structure RetargetTransform where
  q_l : QuatR
  q_r : QuatR

/-- `computeRetargetTransforms` / `RETARGET_TRANSFORMS` (retarget.ts
lines 160–191): the startup loop over `BONE_MAP` entries is modelled as
a lookup function; a bone has a transform iff it is a `BONE_MAP` key
with a `MIXAMO_MATRIX_LOCAL` entry. -/
noncomputable def retargetTransforms (n : String) : Option RetargetTransform :=
  match boneMap n with
  | none => none
  | some _ =>
    match mixamoMatrixLocal n with
    | none => none
    | some q_a =>
      let q_ai := qconj q_a
      let q_r :=
        if rotateWabLSet.contains n then qmul q_ai qArmL
        else if rotateWabRSet.contains n then qmul q_ai qArmR
        else q_ai
      let q_l :=
        if rotateWbaLSet.contains n then qmul qArmR q_a
        else if rotateWbaRSet.contains n then qmul qArmL q_a
        else q_a
      some ⟨q_l, q_r⟩

/-- A raw rotation track (fbx.ts `BoneTrack`, rest pose omitted: it is
not read by the retargeter). -/
structure BoneTrack where
  name : String
  original_name : String
  times : List ℝ
  quats : List QuatR

/-- A raw position track (fbx.ts `PositionTrack`). -/
structure PositionTrack where
  name : String
  original_name : String
  times : List ℝ
  positions : List (ℝ × ℝ × ℝ)

/-- A retargeted rotation track (retarget.ts lines 193–198). -/
structure RetargetedBoneTrack where
  name : String
  originalName : String
  times : List ℝ
  quats : List QuatR

/-- A retargeted position track (retarget.ts lines 200–205). -/
structure RetargetedPositionTrack where
  name : String
  originalName : String
  times : List ℝ
  positions : List Vec3R

/-- `POSITION_SCALE` (retarget.ts line 216). -/
noncomputable def positionScale : ℝ := 1 / 12.5

/-- `POSITION_OFFSET_Y` (retarget.ts line 217). -/
noncomputable def positionOffsetY : ℝ := -8.3

/-- `mapBoneName` (retarget.ts lines 249–254): strip an optional leading
`mixamorig:` (the regex `^mixamorig:(.+)$` needs at least one trailing
character), then translate through `BONE_MAP` with fallback to the
stripped name. -/
def mapBoneName (name : String) : String × String :=
  let mixamoName :=
    if name.take 10 = "mixamorig:" ∧ 10 < name.length then name.drop 10 else name
  let mmdName := (boneMap mixamoName).getD mixamoName
  (mixamoName, mmdName)

/-- The final coordinate-system flip `(x, y, z, w) → (x, y, −z, −w)`
applied to every output quaternion (retarget.ts lines 266 and 270). -/
noncomputable def qflip (q : QuatR) : QuatR := { x := q.x, y := q.y, z := -q.z, w := -q.w }

/-- `retargetBoneTrack` (retarget.ts lines 256–273). -/
noncomputable def retargetBoneTrack (track : BoneTrack) : RetargetedBoneTrack :=
  let mn := (mapBoneName track.name).1
  let mmd := (mapBoneName track.name).2
  { name := mmd
    originalName := track.original_name
    times := track.times
    quats := track.quats.map (fun q =>
      match retargetTransforms mn with
      | none => qflip q
      | some tr => qflip (qmul (qmul tr.q_l q) tr.q_r)) }

/-- `retargetPositionTrack` (retarget.ts lines 275–305): rotate by the
left transform via the expanded sandwich, scale by `1/12.5`, add the Y
offset, flip Z.  The `Array.isArray` guard always succeeds in the model
(positions are triples by construction). -/
noncomputable def retargetPositionTrack (track : PositionTrack) : RetargetedPositionTrack :=
  let mn := (mapBoneName track.name).1
  let mmd := (mapBoneName track.name).2
  let q_l := match retargetTransforms mn with
    | some tr => tr.q_l
    | none => qIdentity
  { name := mmd
    originalName := track.original_name
    times := track.times
    positions := track.positions.map (fun p =>
      let px := p.1
      let py := p.2.1
      let pz := p.2.2
      let tx := 2 * (q_l.y * pz - q_l.z * py)
      let ty := 2 * (q_l.z * px - q_l.x * pz)
      let tz := 2 * (q_l.x * py - q_l.y * px)
      let rx := px + q_l.w * tx + (q_l.y * tz - q_l.z * ty)
      let ry := py + q_l.w * ty + (q_l.z * tx - q_l.x * tz)
      let rz := pz + q_l.w * tz + (q_l.x * ty - q_l.y * tx)
      let sx := rx * positionScale
      let sy := ry * positionScale + positionOffsetY
      let sz := rz * positionScale
      ⟨sx, sy, -sz⟩) }

/-! ## VMD writer module (`src/unnamed/part_000`, `convertToVMD`)

Byte blobs are modelled as `List ℕ` (one entry per byte, written in the
same order as the sequential `DataView` stores of the source, which fill
the allocated buffer exactly).  The IEEE-754 bit pattern of a float32 is
not modelled: `f32le` is a fixed 4-byte placeholder, and every claim
about written float VALUES is stated on the values passed to
`setFloat32` (`writtenPosition` / `writtenRotation` below), not on their
bit encodings. -/

/-- A JavaScript number as seen by the writer's `isFinite` checks:
either a finite real or a non-finite value (NaN / ±∞). -/
inductive VF where
  | fin (x : ℝ)
  | nonfin

/-- `isFinite` on the writer's number model. -/
def VF.isFin : VF → Bool
  | .fin _ => true
  | .nonfin => false

/-- `isFinite(v) ? v : 0` (part_000 lines 28–30 and 36–38). -/
noncomputable def sanZero : VF → ℝ
  | .fin x => x
  | .nonfin => 0

/-- `isFinite(v) ? v : 1` (part_000 line 39, the `w` component). -/
noncomputable def sanOne : VF → ℝ
  | .fin x => x
  | .nonfin => 1

/-- The `VMDBoneKeyframe` record (part_000 lines 5–10) at the writing
boundary, components as possibly-non-finite numbers. -/
structure VMDBoneKeyframeV where
  boneName : String
  frameNumber : ℤ
  px : VF
  py : VF
  pz : VF
  rx : VF
  ry : VF
  rz : VF
  rw : VF

/-- The position triple actually passed to `setFloat32` by
`writeBoneFrame` (part_000 lines 28–33). -/
noncomputable def writtenPosition (kf : VMDBoneKeyframeV) : ℝ × ℝ × ℝ :=
  (sanZero kf.px, sanZero kf.py, sanZero kf.pz)

/-- The rotation quadruple `(x, y, z, w)` actually passed to
`setFloat32` by `writeBoneFrame` (part_000 lines 36–43). -/
noncomputable def writtenRotation (kf : VMDBoneKeyframeV) : ℝ × ℝ × ℝ × ℝ :=
  (sanZero kf.rx, sanZero kf.ry, sanZero kf.rz, sanOne kf.rw)

/-- Modelled stand-in for the external `encoding-japanese` Shift-JIS
encoder (part_000 lines 12–16): the byte content is modelled as UTF-8;
every verified property reads the encoded bytes only through the
fixed-width pad/truncate below, so it is insensitive to the encoding. -/
def encodeShiftJIS (s : String) : List ℕ := s.toUTF8.toList.map (fun b => b.toNat)

/-- The fixed-width store loop `for i in 0..n: buf[i] = i < bytes.length
? bytes[i] : 0` (part_000 lines 20–22 and 275–277): truncate to `n`
bytes and NUL-pad. -/
def padTrunc (n : ℕ) (bs : List ℕ) : List ℕ :=
  (List.range n).map (fun i => bs.getD i 0)

/-- Little-endian `setUint32`. -/
def u32le (n : ℕ) : List ℕ :=
  [n % 256, n / 256 % 256, n / 65536 % 256, n / 16777216 % 256]

/-- `setUint32` applied to a JS integer (ToUint32 wrap-around). -/
def u32ofInt (i : ℤ) : List ℕ := u32le (i % 4294967296).toNat

/-- Placeholder little-endian `setFloat32` (bit pattern abstracted; see
the section comment). -/
def f32le (_x : ℝ) : List ℕ := [0, 0, 0, 0]

/-- `writeBoneFrame` (part_000 lines 18–52): 15-byte padded name, uint32
frame, three sanitised position floats, four sanitised rotation floats,
64 interpolation bytes of value 20. -/
noncomputable def writeBoneFrame (kf : VMDBoneKeyframeV) : List ℕ :=
  padTrunc 15 (encodeShiftJIS kf.boneName) ++
  u32ofInt kf.frameNumber ++
  f32le (sanZero kf.px) ++ f32le (sanZero kf.py) ++ f32le (sanZero kf.pz) ++
  f32le (sanZero kf.rx) ++ f32le (sanZero kf.ry) ++ f32le (sanZero kf.rz) ++
  f32le (sanOne kf.rw) ++
  List.replicate 64 20

/-- The pipeline-level keyframe (all values finite reals). -/
structure VMDBoneKeyframe where
  boneName : String
  frameNumber : ℤ
  position : Vec3R
  rotation : QuatR

/-- Inclusion of pipeline keyframes into the writing boundary. -/
noncomputable def toV (kf : VMDBoneKeyframe) : VMDBoneKeyframeV :=
  { boneName := kf.boneName, frameNumber := kf.frameNumber
    px := .fin kf.position.x, py := .fin kf.position.y, pz := .fin kf.position.z
    rx := .fin kf.rotation.x, ry := .fin kf.rotation.y, rz := .fin kf.rotation.z
    rw := .fin kf.rotation.w }

/-- A retargeted clip as consumed by the writer (retarget.ts lines
207–213). -/
structure RetargetedClip where
  name : String
  duration : ℝ
  fps : ℝ
  boneTracks : List RetargetedBoneTrack
  positionTracks : List RetargetedPositionTrack

/-- `interpolateQuat` (part_000 lines 54–92), transcribed verbatim.
Out-of-range index accesses (empty track) fall back to the identity
quaternion; they cannot occur for the tracks the writer builds. -/
noncomputable def interpolateQuat (track : RetargetedBoneTrack) (time : ℝ) : QuatR :=
  match track.times.findIdx? (fun t => decide (time ≤ t)) with
  | none => track.quats.getLastD qIdentity
  | some idx =>
    if idx = 0 ∨ track.times.getD idx 0 = time then track.quats.getD idx qIdentity
    else
      let t0 := track.times.getD (idx - 1) 0
      let t1 := track.times.getD idx 0
      let t := (time - t0) / (t1 - t0)
      let q0 := track.quats.getD (idx - 1) qIdentity
      let q1 := track.quats.getD idx qIdentity
      let d := qdot q0 q1
      let q1' := if d < 0 then qneg q1 else q1
      let angle := Real.arccos |d|
      if |angle| < 0.001 then
        qnormalize
          { x := q0.x + (q1'.x - q0.x) * t
            y := q0.y + (q1'.y - q0.y) * t
            z := q0.z + (q1'.z - q0.z) * t
            w := q0.w + (q1'.w - q0.w) * t }
      else
        let sinA := Real.sin angle
        let w0 := Real.sin ((1 - t) * angle) / sinA
        let w1 := Real.sin (t * angle) / sinA
        qnormalize
          { x := w0 * q0.x + w1 * q1'.x
            y := w0 * q0.y + w1 * q1'.y
            z := w0 * q0.z + w1 * q1'.z
            w := w0 * q0.w + w1 * q1'.w }

/-- `interpolatePosition` (part_000 lines 94–110), transcribed verbatim. -/
noncomputable def interpolatePosition (track : RetargetedPositionTrack) (time : ℝ) : Vec3R :=
  match track.times.findIdx? (fun t => decide (time ≤ t)) with
  | none => track.positions.getLastD ⟨0, 0, 0⟩
  | some idx =>
    if idx = 0 ∨ track.times.getD idx 0 = time then track.positions.getD idx ⟨0, 0, 0⟩
    else
      let t0 := track.times.getD (idx - 1) 0
      let t1 := track.times.getD idx 0
      let t := (time - t0) / (t1 - t0)
      let p0 := track.positions.getD (idx - 1) ⟨0, 0, 0⟩
      let p1 := track.positions.getD idx ⟨0, 0, 0⟩
      ⟨p0.x + (p1.x - p0.x) * t, p0.y + (p1.y - p0.y) * t, p0.z + (p1.z - p0.z) * t⟩

/-- Association-list model of a JavaScript `Map`: `set` updates an
existing key in place (keeping its position) or appends a new binding;
iteration order is binding order. -/
def upsert {κ ν : Type} [DecidableEq κ] : List (κ × ν) → κ → ν → List (κ × ν)
  | [], k, v => [(k, v)]
  | (k', v') :: t, k, v => if k' = k then (k, v) :: t else (k', v') :: upsert t k v

/-- `Map.get` on the association-list model. -/
def alookup {κ ν : Type} [DecidableEq κ] : List (κ × ν) → κ → Option ν
  | [], _ => none
  | (k', v) :: t, k => if k' = k then some v else alookup t k

/-- Dedup-add of a time list into a JS `Set` (insertion order kept). -/
noncomputable def dedupAdd (acc : List ℝ) (ts : List ℝ) : List ℝ :=
  ts.foldl addUnique acc

/-- `allTimes` of `convertToVMD` (part_000 lines 114–116): the union of
all rotation-track and position-track times. -/
noncomputable def allTimesW (clip : RetargetedClip) : List ℝ :=
  clip.positionTracks.foldl (fun acc tr => dedupAdd acc tr.times)
    (clip.boneTracks.foldl (fun acc tr => dedupAdd acc tr.times) [])

/-- `sortedTimes` (part_000 line 118). -/
noncomputable def sortedTimesW (clip : RetargetedClip) : List ℝ :=
  sortR (allTimesW clip)

/-- `positionTrackMap` (part_000 lines 121–122). -/
noncomputable def positionTrackMap (clip : RetargetedClip) :
    List (String × RetargetedPositionTrack) :=
  clip.positionTracks.foldl (fun m tr => upsert m tr.name tr) []

/-- The keyframe built for a rotation-track bone at one merged time
(part_000 lines 138–159): exact-time match within 1e-4 wins, otherwise
interpolate; position comes from the same-name position track if any. -/
noncomputable def rotKeyframe (track : RetargetedBoneTrack)
    (posTrack : Option RetargetedPositionTrack) (time fps : ℝ) : VMDBoneKeyframe :=
  let rotation :=
    match track.times.findIdx? (fun t => decide (|t - time| < 0.0001)) with
    | some i => track.quats.getD i qIdentity
    | none => interpolateQuat track time
  let position :=
    match posTrack with
    | some pt =>
      match pt.times.findIdx? (fun t => decide (|t - time| < 0.0001)) with
      | some i => pt.positions.getD i ⟨0, 0, 0⟩
      | none => interpolatePosition pt time
    | none => ⟨0, 0, 0⟩
  { boneName := track.name, frameNumber := roundJS (time * fps)
    position := position, rotation := rotation }

/-- The per-bone `boneKeyframes` map of a rotation track (part_000 lines
129–160): iterate the sorted merged bone times, keying by rounded frame
number (a later time with the same frame replaces the earlier record). -/
noncomputable def buildBoneKeyframes (track : RetargetedBoneTrack)
    (posTrack : Option RetargetedPositionTrack) (fps : ℝ) (ts : List ℝ) :
    List (ℤ × VMDBoneKeyframe) :=
  ts.foldl (fun m t => upsert m (roundJS (t * fps)) (rotKeyframe track posTrack t fps)) []

/-- The merged, sorted time list of one rotation track and its optional
same-name position track (part_000 lines 132–136). -/
noncomputable def boneTimesOf (track : RetargetedBoneTrack)
    (posTrack : Option RetargetedPositionTrack) : List ℝ :=
  sortR (dedupAdd (dedupAdd [] track.times) (match posTrack with | some pt => pt.times | none => []))

/-- The keyframe built for a position-only bone at one of its times
(part_000 lines 170–184); rotation is the identity. -/
noncomputable def posKeyframe (pt : RetargetedPositionTrack) (time fps : ℝ) : VMDBoneKeyframe :=
  let position :=
    match pt.times.findIdx? (fun t => decide (|t - time| < 0.0001)) with
    | some i => pt.positions.getD i ⟨0, 0, 0⟩
    | none => interpolatePosition pt time
  { boneName := pt.name, frameNumber := roundJS (time * fps)
    position := position, rotation := ⟨0, 0, 0, 1⟩ }

/-- The per-bone map of a position-only track (part_000 lines 168–184):
iterates the raw (unsorted, undeduplicated) position times. -/
noncomputable def buildPosOnlyKeyframes (pt : RetargetedPositionTrack) (fps : ℝ) :
    List (ℤ × VMDBoneKeyframe) :=
  pt.times.foldl (fun m t => upsert m (roundJS (t * fps)) (posKeyframe pt t fps)) []

/-- `keyframeMap` (part_000 lines 126–188): one per-bone frame map per
rotation track (keyed by track name, later same-name track replaces the
earlier), then per-bone maps for position-only tracks whose name has no
rotation track. -/
noncomputable def keyframeMapOf (clip : RetargetedClip) (fps : ℝ) :
    List (String × List (ℤ × VMDBoneKeyframe)) :=
  let step1 := clip.boneTracks.foldl (fun km track =>
    upsert km track.name
      (buildBoneKeyframes track (alookup (positionTrackMap clip) track.name) fps
        (boneTimesOf track (alookup (positionTrackMap clip) track.name)))) []
  clip.positionTracks.foldl (fun km pt =>
    if (clip.boneTracks.map (fun t => t.name)).contains pt.name then km
    else upsert km pt.name (buildPosOnlyKeyframes pt fps)) step1

/-- Sorted insertion for the final keyframe sort (part_000 lines
196–201): ascending frame number, ties by bone name (`localeCompare`
modelled as code-unit order; the destination names are single-script
so the orders agree). -/
noncomputable def insertKF (x : VMDBoneKeyframe) : List VMDBoneKeyframe → List VMDBoneKeyframe
  | [] => [x]
  | y :: t =>
      if x.frameNumber < y.frameNumber ∨
         (x.frameNumber = y.frameNumber ∧ x.boneName ≤ y.boneName) then x :: y :: t
      else y :: insertKF x t

/-- The final keyframe sort. -/
noncomputable def sortKF (l : List VMDBoneKeyframe) : List VMDBoneKeyframe :=
  l.foldr insertKF []

/-- The flat, sorted keyframe list written to the file (part_000 lines
190–201). -/
noncomputable def vmdKeyframes (clip : RetargetedClip) (fps : ℝ) : List VMDBoneKeyframe :=
  sortKF ((keyframeMapOf clip fps).flatMap (fun e => e.2.map (fun p => p.2)))

/-- `ikDisabledBones` (part_000 lines 204–211). -/
def ikDisabledBones : List String :=
  ["右足IK親", "左足IK親", "右足ＩＫ", "左足ＩＫ", "右つま先ＩＫ", "左つま先ＩＫ"]

/-- Bytes of the ASCII header string (`charCodeAt` store loop). -/
def strCharCodes (s : String) : List ℕ := s.data.map Char.toNat

/-- The 50-byte VMD header: 30-byte magic + 20 NUL bytes of model name
(part_000 lines 236–245). -/
def vmdHeader : List ℕ :=
  padTrunc 30 (strCharCodes "Vocaloid Motion Data 0002") ++ List.replicate 20 0

/-- The single property keyframe (part_000 lines 265–282): uint32 frame
0, visibility byte 1, uint32 IK count, then per IK bone a 20-byte padded
name and one 0 byte. -/
def propertyBlock : List ℕ :=
  u32le 0 ++ [1] ++ u32le ikDisabledBones.length ++
  (ikDisabledBones.map (fun b => padTrunc 20 (encodeShiftJIS b) ++ [0])).flatten

/-- `convertToVMD` (part_000 lines 112–285): the produced blob.  A clip
with no track times yields an empty blob (line 119);
`hasPropertyKeyframes` is `ikDisabledBones.length > 0` as in the source
(lines 212 and 222). -/
noncomputable def vmdBytes (clip : RetargetedClip) (fps : ℝ) : List ℕ :=
  if sortedTimesW clip = [] then []
  else
    let kfs := vmdKeyframes clip fps
    vmdHeader ++
    u32le kfs.length ++
    (kfs.map (fun kf => writeBoneFrame (toV kf))).flatten ++
    u32le 0 ++    -- morph frame count
    u32le 0 ++    -- camera keyframe count
    u32le 0 ++    -- light keyframe count
    u32le 0 ++    -- self-shadow keyframe count
    u32le (if 0 < ikDisabledBones.length then 1 else 0) ++   -- property keyframe count
    (if 0 < ikDisabledBones.length then propertyBlock else [])

/-- Little-endian uint32 read from a byte list at an offset (used to
state what a produced blob contains). -/
def readU32 (l : List ℕ) (off : ℕ) : Option ℕ :=
  match l.drop off with
  | b0 :: b1 :: b2 :: b3 :: _ => some (b0 + 256 * b1 + 65536 * b2 + 16777216 * b3)
  | _ => none

/-! ## `src/lib/fbx.ts` — binary reader, `S`-property decoding -/

/-- `TextDecoder().decode` on the byte slices read here, modelled as a
character per byte (the inputs of interest are ASCII). -/
def bytesToStr (bs : List ℕ) : String := String.mk (bs.map Char.ofNat)

/-- `readArrayAsString` (fbx.ts lines 1043–1049): take `len` bytes,
truncate at the first NUL byte, decode; also returns the remaining
stream. -/
def readArrayAsString (bs : List ℕ) (len : ℕ) : String × List ℕ :=
  let chunk := bs.take len
  let cut :=
    match chunk.findIdx? (fun b => decide (b = 0)) with
    | some i => chunk.take i
    | none => chunk
  (bytesToStr cut, bs.drop len)

/-- JavaScript `String.split` on a fixed two-character separator `ab`:
cut at each leftmost, non-overlapping occurrence. -/
def splitOnPair (a b : Char) : List Char → List (List Char)
  | [] => [[]]
  | [c] => [[c]]
  | c :: d :: rest =>
      if c = a ∧ d = b then [] :: splitOnPair a b rest
      else
        match splitOnPair a b (d :: rest) with
        | [] => [[c]]
        | h :: t => (c :: h) :: t

/-- JavaScript `Array.join(sep)` over the split parts. -/
def joinSep (sep : List Char) : List (List Char) → List Char
  | [] => []
  | [l] => l
  | l :: ls => l ++ sep ++ joinSep sep ls

/-- The qualified-name transform of the `S` case (fbx.ts lines
1166–1169): if the decoded string still contains the two-byte sentinel
`\x00\x01` (i.e. the split yields at least two parts), split on it,
reverse the parts, and join with `::`. -/
def fbxQualify (s : String) : String :=
  let parts := splitOnPair '\x00' '\x01' s.data
  if 2 ≤ parts.length then String.mk (joinSep [':', ':'] parts.reverse) else s

/-- The `S` branch of `readProperty` (fbx.ts lines 1164–1170): read a
uint32 length, read that many bytes through `readArrayAsString`, then
apply the qualified-name transform. -/
def readStringProp (bs : List ℕ) : Option String :=
  match readU32 bs 0 with
  | none => none
  | some len =>
    let r := readArrayAsString (bs.drop 4) len
    some (fbxQualify r.1)

/-! ## General helper lemmas -/

theorem qdot_qneg_right (a b : QuatR) : qdot a (qneg b) = -qdot a b := by
  simp only [qdot, qneg]
  ring

theorem qflip_qflip (q : QuatR) : qflip (qflip q) = q := by
  cases q
  simp [qflip]

/-! ## C9 — `S`-property sentinel decoding -/

/-- C9: the claim states that an `S` property whose byte content
contains the sentinel `\x00\x01` decodes to the two halves swapped and
joined with `::` (`'A\x00\x01B'` → `'B::A'`).  The code's
`readArrayAsString` truncates the byte content at the FIRST NUL byte —
which is the first byte of the sentinel — so the sentinel never reaches
the swap branch and the property decodes to just the first half:
`readProperty` on the `S` payload `[len=4] 'A' 00 01 'B'` returns `"A"`,
not `"B::A"`.  The swap branch itself (dead code) does implement the
documented transform, as the second conjunct shows. -/
theorem c9_sentinel_truncated :
    readStringProp [4, 0, 0, 0, 65, 0, 1, 66] = some "A" ∧
    fbxQualify "A\x00\x01B" = "B::A" ∧
    ("A" : String) ≠ "B::A" := by
  refine ⟨by decide, by decide, by decide⟩

/-! ## C3 — degenerate retarget is the pure Z/W sign flip -/

/-- C3: for a track whose stripped name has no precomputed retarget
transform, every output quaternion is the input with the Z and W
components sign-flipped, and the flip is an exact involution. -/
theorem c3_no_transform_flip (track : BoneTrack)
    (h : retargetTransforms (mapBoneName track.name).1 = none) :
    (retargetBoneTrack track).quats = track.quats.map qflip ∧
    ∀ q : QuatR, qflip (qflip q) = q := by
  constructor
  · simp only [retargetBoneTrack, h]
  · exact qflip_qflip

/-- Witness for C3 at the unmapped bone name `"Tail"`. -/
theorem c3_no_transform_flip_witness :
    retargetTransforms (mapBoneName "Tail").1 = none ∧
    ((retargetBoneTrack ⟨"Tail", "Tail", [0], [⟨1, 2, 3, 4⟩]⟩).quats
        = [(⟨1, 2, 3, 4⟩ : QuatR)].map qflip ∧
      ∀ q : QuatR, qflip (qflip q) = q) := by
  have h : retargetTransforms (mapBoneName "Tail").1 = none := rfl
  exact ⟨h, c3_no_transform_flip ⟨"Tail", "Tail", [0], [⟨1, 2, 3, 4⟩]⟩ h⟩

/-! ## C7 — non-finite sanitisation in `writeBoneFrame` -/

/-- A keyframe with one non-finite rotation component and the other
rotation components finite and non-identity. -/
noncomputable def c7Keyframe : VMDBoneKeyframeV :=
  { boneName := "センター", frameNumber := 0
    px := .fin 0, py := .fin 0, pz := .fin 0
    rx := .nonfin, ry := .fin 0.5, rz := .fin 0, rw := .fin 0.8 }

/-- C7 counterexample: the claim says that if ANY rotation component is
non-finite the written rotation is the identity `(0,0,0,1)`.  The code
substitutes per component: with `x` non-finite and `y = 0.5` finite the
written rotation is `(0, 0.5, 0, 0.8)`, not the identity. -/
theorem c7_counterexample :
    c7Keyframe.rx.isFin = false ∧
    writtenRotation c7Keyframe = (0, 0.5, 0, 0.8) ∧
    writtenRotation c7Keyframe ≠ (0, 0, 0, 1) := by
  refine ⟨rfl, rfl, ?_⟩
  intro h
  have h2 := congrArg (fun p => p.2.1) h
  simp only [writtenRotation, c7Keyframe, sanZero] at h2
  norm_num at h2

/-- C7 amended: `writeBoneFrame` substitutes non-finite values per
component — each non-finite position component is written as 0, each
non-finite rotation component as its identity component (0 for x, y, z
and 1 for w) — and finite components are written unchanged; in
particular a fully non-finite rotation is written as the identity. -/
theorem c7_sanitisation_per_component (kf : VMDBoneKeyframeV) :
    ((kf.rx = .nonfin ∧ kf.ry = .nonfin ∧ kf.rz = .nonfin ∧ kf.rw = .nonfin) →
        writtenRotation kf = (0, 0, 0, 1)) ∧
    (∀ x y z w : ℝ, kf.rx = .fin x → kf.ry = .fin y → kf.rz = .fin z → kf.rw = .fin w →
        writtenRotation kf = (x, y, z, w)) ∧
    (kf.px = .nonfin → (writtenPosition kf).1 = 0) ∧
    (∀ x : ℝ, kf.px = .fin x → (writtenPosition kf).1 = x) ∧
    (kf.py = .nonfin → (writtenPosition kf).2.1 = 0) ∧
    (∀ y : ℝ, kf.py = .fin y → (writtenPosition kf).2.1 = y) ∧
    (kf.pz = .nonfin → (writtenPosition kf).2.2 = 0) ∧
    (∀ z : ℝ, kf.pz = .fin z → (writtenPosition kf).2.2 = z) := by
  refine ⟨?_, ?_, ?_, ?_, ?_, ?_, ?_, ?_⟩
  · rintro ⟨h1, h2, h3, h4⟩
    simp [writtenRotation, h1, h2, h3, h4, sanZero, sanOne]
  · intro x y z w h1 h2 h3 h4
    simp [writtenRotation, h1, h2, h3, h4, sanZero, sanOne]
  · intro h1; simp [writtenPosition, h1, sanZero]
  · intro x h1; simp [writtenPosition, h1, sanZero]
  · intro h1; simp [writtenPosition, h1, sanZero]
  · intro y h1; simp [writtenPosition, h1, sanZero]
  · intro h1; simp [writtenPosition, h1, sanZero]
  · intro z h1; simp [writtenPosition, h1, sanZero]

/-- A keyframe whose rotation components are all non-finite and whose
position mixes finite and non-finite components. -/
noncomputable def c7WitnessKeyframe : VMDBoneKeyframeV :=
  { boneName := "センター", frameNumber := 0
    px := .fin 5, py := .nonfin, pz := .fin 2
    rx := .nonfin, ry := .nonfin, rz := .nonfin, rw := .nonfin }

/-- Witness for C7 at a fully non-finite rotation and a mixed position. -/
theorem c7_sanitisation_per_component_witness :
    writtenRotation c7WitnessKeyframe = (0, 0, 0, 1) ∧
    (writtenPosition c7WitnessKeyframe).1 = 5 ∧
    (writtenPosition c7WitnessKeyframe).2.1 = 0 ∧
    (writtenPosition c7WitnessKeyframe).2.2 = 2 := by
  refine ⟨(c7_sanitisation_per_component c7WitnessKeyframe).1 ⟨rfl, rfl, rfl, rfl⟩,
    (c7_sanitisation_per_component c7WitnessKeyframe).2.2.2.1 5 rfl,
    (c7_sanitisation_per_component c7WitnessKeyframe).2.2.2.2.1 rfl,
    (c7_sanitisation_per_component c7WitnessKeyframe).2.2.2.2.2.2.2 2 rfl⟩

/-! ## C4 — which bones receive the arm-angle left transform -/

theorem sin_halfArmAngle_pos : 0 < Real.sin (armAngle / 2) := by
  apply Real.sin_pos_of_pos_of_lt_pi
  · unfold armAngle
    positivity
  · unfold armAngle
    nlinarith [Real.pi_pos]

/-- C4 counterexample: `LeftArm` is in the claimed set ("the left arm
and all left-hand finger bones"), but its precomputed left transform is
plain `q_a = (0.5, 0.5, −0.5, 0.5)` (it is absent from
`ROTATE_WBA_L_SET`), which differs from the claimed
`rot(Z, −35°) · q_a`. -/
theorem c4_counterexample :
    (retargetTransforms "LeftArm").map RetargetTransform.q_l
      = some ⟨0.5, 0.5, -0.5, 0.5⟩ ∧
    qmul qArmR (⟨0.5, 0.5, -0.5, 0.5⟩ : QuatR) ≠ (⟨0.5, 0.5, -0.5, 0.5⟩ : QuatR) := by
  constructor
  · rfl
  · intro h
    have hw := congrArg QuatR.w h
    simp only [qmul, qArmR, fromAxisAngle, armAngle] at hw
    have hs : 0 < Real.sin (35 * Real.pi / 180 / 2) := sin_halfArmAngle_pos
    have hc : Real.cos (35 * Real.pi / 180 / 2) ≤ 1 := Real.cos_le_one _
    rw [neg_div, Real.sin_neg, Real.cos_neg] at hw
    nlinarith [hs, hc, hw]

/-- C4 amended: the bones whose left transform is `rot(Z, −35°) · q_a`
are the left FOREARM and the left-hand finger bones
(`ROTATE_WBA_L_SET`), with the mirrored right set receiving
`rot(Z, +35°) · q_a`; the upper-arm bones `LeftArm` / `RightArm` keep
`q_l = q_a`. -/
theorem c4_wba_sets_get_arm_rotation (b : String) :
    (b ∈ rotateWbaLSet →
      ∃ qa, mixamoMatrixLocal b = some qa ∧
        (retargetTransforms b).map RetargetTransform.q_l = some (qmul qArmR qa)) ∧
    (b ∈ rotateWbaRSet →
      ∃ qa, mixamoMatrixLocal b = some qa ∧
        (retargetTransforms b).map RetargetTransform.q_l = some (qmul qArmL qa)) := by
  constructor
  · intro hb
    fin_cases hb <;> exact ⟨_, rfl, rfl⟩
  · intro hb
    fin_cases hb <;> exact ⟨_, rfl, rfl⟩

/-- Witness for C4 at `LeftForeArm` and `RightForeArm`. -/
theorem c4_wba_sets_get_arm_rotation_witness :
    ("LeftForeArm" ∈ rotateWbaLSet ∧
      ∃ qa, mixamoMatrixLocal "LeftForeArm" = some qa ∧
        (retargetTransforms "LeftForeArm").map RetargetTransform.q_l
          = some (qmul qArmR qa)) ∧
    ("RightForeArm" ∈ rotateWbaRSet ∧
      ∃ qa, mixamoMatrixLocal "RightForeArm" = some qa ∧
        (retargetTransforms "RightForeArm").map RetargetTransform.q_l
          = some (qmul qArmL qa)) := by
  refine ⟨⟨by decide, (c4_wba_sets_get_arm_rotation "LeftForeArm").1 (by decide)⟩,
    ⟨by decide, (c4_wba_sets_get_arm_rotation "RightForeArm").2 (by decide)⟩⟩

/-! ## C5 — hips position retarget -/

/-- A hips position track with the single sample `(0, 100, 0)`. -/
noncomputable def hipsTrack : PositionTrack :=
  { name := "Hips", original_name := "Hips", times := [0], positions := [(0, 100, 0)] }

/-- C5 counterexample: the claim says retargeting the hips sample
`(0, 100, 0)` yields `(0, −0.3, 0)` via an identity sandwich.  The code
rotates by the hips rest quaternion `q_a = (0.0065, 0, 0, 0.99998)`,
which is not the identity, so the output differs. -/
theorem c5_counterexample :
    (retargetPositionTrack hipsTrack).positions ≠ [⟨0, -0.3, 0⟩] := by
  intro h
  have h1 := congrArg (fun l => (l.headD ⟨0, 0, 0⟩).z) h
  have he : retargetTransforms "Hips"
      = some ⟨⟨0.0065, 0, 0, 0.99998⟩, qconj ⟨0.0065, 0, 0, 0.99998⟩⟩ := rfl
  have hmn : (mapBoneName "Hips").1 = "Hips" := rfl
  simp only [retargetPositionTrack, hipsTrack, hmn, he, positionScale,
    positionOffsetY, List.map_cons, List.map_nil, List.headD_cons] at h1
  norm_num at h1

/-- C5 amended: the position sandwich uses the hips rest quaternion
`q_a = (0.0065, 0, 0, 0.99998)` (the left transform of `Hips`), not the
identity; after scaling by `1/12.5`, offsetting Y by `−8.3` and flipping
Z, the sample `(0, 100, 0)` maps exactly to
`(0, −0.300676, −0.10399792)`. -/
theorem c5_hips_position_exact :
    (retargetPositionTrack hipsTrack).positions = [⟨0, -0.300676, -0.10399792⟩] ∧
    (retargetPositionTrack hipsTrack).name = "センター" := by
  have he : retargetTransforms "Hips"
      = some ⟨⟨0.0065, 0, 0, 0.99998⟩, qconj ⟨0.0065, 0, 0, 0.99998⟩⟩ := rfl
  have hmn : (mapBoneName "Hips").1 = "Hips" := rfl
  constructor
  · simp only [retargetPositionTrack, hipsTrack, hmn, he, positionScale,
      positionOffsetY, List.map_cons, List.map_nil]
    norm_num
  · rfl

/-! ## C2 — unrolled tracks have non-negative adjacent dot products -/

theorem chain_unrollStep (acc : List QuatR) (e : ℝ × ℝ × ℝ)
    (h : acc.Chain' (fun a b => 0 ≤ qdot a b)) :
    (unrollStep acc e).Chain' (fun a b => 0 ≤ qdot a b) := by
  unfold unrollStep
  cases hl : acc.getLast? with
  | none =>
    have : acc = [] := List.getLast?_eq_none_iff.mp hl
    subst this
    simp
  | some p =>
    set q := eulerToQuaternionByOrder e.1 e.2.1 e.2.2 "ZXY" with hq
    by_cases hd : qdot p q < 0
    · simp only [if_pos hd]
      rw [List.chain'_append]
      refine ⟨h, List.chain'_singleton _, ?_⟩
      intro x hx y hy
      rw [hl] at hx
      simp at hx hy
      subst hx
      subst hy
      rw [qdot_qneg_right]
      linarith
    · simp only [if_neg hd]
      rw [List.chain'_append]
      refine ⟨h, List.chain'_singleton _, ?_⟩
      intro x hx y hy
      rw [hl] at hx
      simp at hx hy
      subst hx
      subst hy
      linarith

theorem chain_unroll_foldl (l : List (ℝ × ℝ × ℝ)) (acc : List QuatR)
    (h : acc.Chain' (fun a b => 0 ≤ qdot a b)) :
    (l.foldl unrollStep acc).Chain' (fun a b => 0 ≤ qdot a b) := by
  induction l generalizing acc with
  | nil => exact h
  | cons e t ih => exact ih _ (chain_unrollStep acc e h)

/-- C2: in every rotation track assembled by `generateQuaternions`,
every adjacent pair of quaternions has a non-negative dot product
(`List.Chain'` states exactly "for all i ≥ 1, dot(q_{i−1}, q_i) ≥ 0"):
the unrolling step negates any candidate whose dot product with the
previously pushed quaternion is negative. -/
theorem c2_adjacent_dot_nonneg (cx cy cz : Curve) :
    ((generateQuaternions cx cy cz).2).Chain' (fun a b => 0 ≤ qdot a b) := by
  unfold generateQuaternions
  by_cases h1 : (interpolateRotations cx cy cz).2.length % 3 ≠ 0
  · simp [h1]
  · by_cases h2 :
      (interpolateRotations cx cy cz).1.length ≠ (interpolateRotations cx cy cz).2.length / 3
    · simp [h1, h2]
    · simp only [h1, h2, if_false, ite_false]
      exact chain_unroll_foldl _ _ (by simp)

/-! ## Writer blob structure lemmas (shared by C6 and C8) -/

theorem length_padTrunc (n : ℕ) (bs : List ℕ) : (padTrunc n bs).length = n := by
  simp [padTrunc]

theorem length_u32le (n : ℕ) : (u32le n).length = 4 := rfl

theorem length_u32ofInt (i : ℤ) : (u32ofInt i).length = 4 := rfl

theorem length_writeBoneFrame (kf : VMDBoneKeyframeV) : (writeBoneFrame kf).length = 111 := by
  simp [writeBoneFrame, length_padTrunc, length_u32ofInt, f32le]

theorem length_vmdHeader : vmdHeader.length = 50 := by
  simp [vmdHeader, length_padTrunc]

theorem length_propertyBlock : propertyBlock.length = 135 := by
  simp [propertyBlock, u32le, ikDisabledBones, length_padTrunc]

theorem frames_length (kfs : List VMDBoneKeyframe) :
    ((kfs.map (fun kf => writeBoneFrame (toV kf))).flatten).length = 111 * kfs.length := by
  induction kfs with
  | nil => simp
  | cons a t ih =>
    simp only [List.map_cons, List.flatten_cons, List.length_append, ih,
      length_writeBoneFrame, List.length_cons]
    ring

theorem dropAppendLen (a b : List ℕ) (k : ℕ) : (a ++ b).drop (a.length + k) = b.drop k := by
  induction a with
  | nil => simp
  | cons x t ih =>
    have h : t.length + 1 + k = (t.length + k) + 1 := by omega
    simp only [List.cons_append, List.length_cons, h, List.drop_succ_cons]
    exact ih

theorem drop_prefix_len (a b : List ℕ) (n k : ℕ) (hn : a.length = n) :
    (a ++ b).drop (n + k) = b.drop k := by
  rw [← hn]
  exact dropAppendLen a b k

/-! ## C6 — blob size -/

theorem ik_nonempty : 0 < ikDisabledBones.length := by
  decide

theorem vmdBytes_length (clip : RetargetedClip) (fps : ℝ) (h : sortedTimesW clip ≠ []) :
    (vmdBytes clip fps).length = 209 + 111 * (vmdKeyframes clip fps).length := by
  simp only [vmdBytes, if_neg h, if_pos ik_nonempty, List.length_append, length_vmdHeader,
    length_u32le, frames_length, length_propertyBlock]
  ring

/-- C6 amended: for a clip with at least one track time, the emitted
blob length is `50 + 4 + 111·N + 4·4 + 4 + 135`: the single
property-keyframe payload is 135 bytes (uint32 frame + visibility byte
+ uint32 IK count + 6·(20+1) entry bytes), not the claimed 125.  (A clip
with no track times returns an empty blob instead.) -/
theorem c6_blob_size (clip : RetargetedClip) (fps : ℝ) (h : sortedTimesW clip ≠ []) :
    (vmdBytes clip fps).length
      = 50 + 4 + 111 * (vmdKeyframes clip fps).length + 4 * 4 + 4 + 135 := by
  rw [vmdBytes_length clip fps h]
  ring

/-- A clip with a single rotation track holding one key at t = 0. -/
noncomputable def oneKeyClip : RetargetedClip :=
  { name := "clip", duration := 1, fps := 30
    boneTracks := [⟨"A", "A", [0], [⟨0, 0, 0, 1⟩]⟩]
    positionTracks := [] }

theorem sortedTimesW_oneKeyClip : sortedTimesW oneKeyClip = [0] := by
  simp [sortedTimesW, allTimesW, oneKeyClip, dedupAdd, addUnique, sortR, insertSorted]

/-- C6 counterexample: on the one-key clip the blob is 10 bytes longer
than the claimed `50 + 4 + 111·N + 4·4 + 4 + 125`. -/
theorem c6_counterexample :
    (vmdBytes oneKeyClip 30).length
      ≠ 50 + 4 + 111 * (vmdKeyframes oneKeyClip 30).length + 4 * 4 + 4 + 125 := by
  have h : sortedTimesW oneKeyClip ≠ [] := by
    rw [sortedTimesW_oneKeyClip]
    simp
  rw [vmdBytes_length oneKeyClip 30 h]
  omega

/-- Witness for C6 at the one-key clip. -/
theorem c6_blob_size_witness :
    sortedTimesW oneKeyClip ≠ [] ∧
    (vmdBytes oneKeyClip 30).length
      = 50 + 4 + 111 * (vmdKeyframes oneKeyClip 30).length + 4 * 4 + 4 + 135 := by
  have h : sortedTimesW oneKeyClip ≠ [] := by
    rw [sortedTimesW_oneKeyClip]
    simp
  exact ⟨h, c6_blob_size oneKeyClip 30 h⟩

/-! ## C8 — the property keyframe -/

theorem vmdBytes_drop_frames (clip : RetargetedClip) (fps : ℝ) (h : sortedTimesW clip ≠ [])
    (k : ℕ) :
    (vmdBytes clip fps).drop (54 + 111 * (vmdKeyframes clip fps).length + k)
      = (u32le 0 ++ u32le 0 ++ u32le 0 ++ u32le 0 ++ u32le 1 ++ propertyBlock).drop k := by
  have harith : 54 + 111 * (vmdKeyframes clip fps).length + k
      = 50 + (4 + (111 * (vmdKeyframes clip fps).length + k)) := by omega
  rw [harith]
  simp only [vmdBytes, if_neg h, if_pos ik_nonempty, List.append_assoc]
  rw [drop_prefix_len _ _ 50 _ length_vmdHeader,
    drop_prefix_len _ _ 4 _ (length_u32le _),
    drop_prefix_len _ _ (111 * (vmdKeyframes clip fps).length) _ (frames_length _)]

/-- C8 amended: every blob produced from a clip with at least one track
time contains exactly one property keyframe (uint32 count 1 at offset
`54 + 111N + 16`) carrying six IK-disabling entries (uint32 count 6 at
offset `54 + 111N + 25`), and the blob ends right after that single
135-byte payload.  A clip with NO track times, however, produces an
empty blob (the claim's "regardless of input" fails there). -/
theorem c8_property_keyframe (clip : RetargetedClip) (fps : ℝ)
    (h : sortedTimesW clip ≠ []) :
    readU32 (vmdBytes clip fps) (54 + 111 * (vmdKeyframes clip fps).length + 16) = some 1 ∧
    readU32 (vmdBytes clip fps) (54 + 111 * (vmdKeyframes clip fps).length + 25) = some 6 ∧
    (vmdBytes clip fps).length
      = 54 + 111 * (vmdKeyframes clip fps).length + 20 + 135 := by
  refine ⟨?_, ?_, ?_⟩
  · rw [readU32, vmdBytes_drop_frames clip fps h 16]
    simp [u32le, propertyBlock, ikDisabledBones]
  · rw [readU32, vmdBytes_drop_frames clip fps h 25]
    simp [u32le, propertyBlock, ikDisabledBones]
  · rw [vmdBytes_length clip fps h]
    ring

/-- A clip with no tracks at all (hence no track times). -/
noncomputable def emptyClip : RetargetedClip :=
  { name := "clip", duration := 1, fps := 30, boneTracks := [], positionTracks := [] }

/-- C8 counterexample: a clip with no track times produces an EMPTY
blob, which contains no property keyframe at all — the claim's
"regardless of input, including clips with no track times" fails. -/
theorem c8_counterexample :
    vmdBytes emptyClip 30 = [] ∧
    readU32 (vmdBytes emptyClip 30)
      (54 + 111 * (vmdKeyframes emptyClip 30).length + 16) ≠ some 1 := by
  have hb : vmdBytes emptyClip 30 = [] := by
    simp [vmdBytes, sortedTimesW, allTimesW, emptyClip, sortR]
  refine ⟨hb, ?_⟩
  rw [hb]
  simp [readU32]

/-- Witness for C8 at the one-key clip. -/
theorem c8_property_keyframe_witness :
    sortedTimesW oneKeyClip ≠ [] ∧
    (readU32 (vmdBytes oneKeyClip 30)
        (54 + 111 * (vmdKeyframes oneKeyClip 30).length + 16) = some 1 ∧
      readU32 (vmdBytes oneKeyClip 30)
        (54 + 111 * (vmdKeyframes oneKeyClip 30).length + 25) = some 6 ∧
      (vmdBytes oneKeyClip 30).length
        = 54 + 111 * (vmdKeyframes oneKeyClip 30).length + 20 + 135) := by
  have h : sortedTimesW oneKeyClip ≠ [] := by
    rw [sortedTimesW_oneKeyClip]
    simp
  exact ⟨h, c8_property_keyframe oneKeyClip 30 h⟩

/-! ## C10 — at most one bone-frame record per bone and frame -/

theorem upsert_cons_eq {κ ν : Type} [DecidableEq κ] (a : κ) (b : ν) (t : List (κ × ν))
    (k : κ) (v : ν) (h : a = k) : upsert ((a, b) :: t) k v = (k, v) :: t := by
  simp [upsert, h]

theorem upsert_cons_ne {κ ν : Type} [DecidableEq κ] (a : κ) (b : ν) (t : List (κ × ν))
    (k : κ) (v : ν) (h : ¬a = k) : upsert ((a, b) :: t) k v = (a, b) :: upsert t k v := by
  simp [upsert, h]

theorem upsert_mem {κ ν : Type} [DecidableEq κ] (m : List (κ × ν)) (k : κ) (v : ν) :
    ∀ p ∈ upsert m k v, p ∈ m ∨ p = (k, v) := by
  induction m with
  | nil =>
    intro p hp
    simp [upsert] at hp
    simp [hp]
  | cons e t ih =>
    obtain ⟨a, b⟩ := e
    intro p hp
    by_cases he : a = k
    · rw [upsert_cons_eq a b t k v he] at hp
      rcases List.mem_cons.mp hp with hp | hp
      · right; rw [hp]
      · left; exact List.mem_cons_of_mem _ hp
    · rw [upsert_cons_ne a b t k v he] at hp
      rcases List.mem_cons.mp hp with hp | hp
      · left; rw [hp]; exact List.mem_cons_self _ _
      · rcases ih p hp with h | h
        · left; exact List.mem_cons_of_mem _ h
        · right; exact h

theorem upsert_keys {κ ν : Type} [DecidableEq κ] (m : List (κ × ν)) (k : κ) (v : ν) :
    (upsert m k v).map Prod.fst = m.map Prod.fst ∨
    (upsert m k v).map Prod.fst = m.map Prod.fst ++ [k] := by
  induction m with
  | nil => right; simp [upsert]
  | cons e t ih =>
    obtain ⟨a, b⟩ := e
    by_cases he : a = k
    · left
      rw [upsert_cons_eq a b t k v he]
      simp [he]
    · rw [upsert_cons_ne a b t k v he]
      rcases ih with h | h
      · left; simp [h]
      · right; simp [h]

theorem upsert_keys_nodup {κ ν : Type} [DecidableEq κ] (m : List (κ × ν)) (k : κ) (v : ν)
    (h : (m.map Prod.fst).Nodup) : ((upsert m k v).map Prod.fst).Nodup := by
  induction m with
  | nil => simp [upsert]
  | cons e t ih =>
    obtain ⟨a, b⟩ := e
    simp only [List.map_cons, List.nodup_cons] at h
    by_cases he : a = k
    · rw [upsert_cons_eq a b t k v he]
      simp only [List.map_cons, List.nodup_cons]
      rw [← he]
      exact h
    · rw [upsert_cons_ne a b t k v he]
      simp only [List.map_cons, List.nodup_cons]
      refine ⟨?_, ih h.2⟩
      intro hc
      rcases upsert_keys t k v with hk | hk
      · rw [hk] at hc; exact h.1 hc
      · rw [hk] at hc
        rcases List.mem_append.mp hc with hc | hc
        · exact h.1 hc
        · simp at hc; exact he hc

theorem alookup_upsert_self {κ ν : Type} [DecidableEq κ] (m : List (κ × ν)) (k : κ) (v : ν) :
    alookup (upsert m k v) k = some v := by
  induction m with
  | nil => simp [upsert, alookup]
  | cons e t ih =>
    obtain ⟨a, b⟩ := e
    by_cases he : a = k
    · rw [upsert_cons_eq a b t k v he]
      simp [alookup]
    · rw [upsert_cons_ne a b t k v he]
      simp only [alookup, if_neg he]
      exact ih

theorem alookup_upsert_ne {κ ν : Type} [DecidableEq κ] (m : List (κ × ν)) (k f : κ) (v : ν)
    (h : k ≠ f) : alookup (upsert m k v) f = alookup m f := by
  induction m with
  | nil => simp [upsert, alookup, h]
  | cons e t ih =>
    obtain ⟨a, b⟩ := e
    by_cases he : a = k
    · rw [upsert_cons_eq a b t k v he]
      have haf : ¬a = f := by rw [he]; exact h
      simp only [alookup, if_neg h, if_neg haf]
    · rw [upsert_cons_ne a b t k v he]
      simp only [alookup]
      split
      · rfl
      · exact ih

/-- Latest-binding-wins for a fold of keyed upserts: the final value at
key `f` comes from the LAST element of the list whose key is `f`. -/
theorem foldl_upsert_lookup {α : Type} (key : α → ℤ) (val : α → VMDBoneKeyframe) :
    ∀ (ts : List α) (m0 : List (ℤ × VMDBoneKeyframe)) (f : ℤ),
      alookup (ts.foldl (fun m t => upsert m (key t) (val t)) m0) f =
        match (ts.filter (fun t => decide (key t = f))).getLast? with
        | some t => some (val t)
        | none => alookup m0 f := by
  intro ts
  induction ts with
  | nil => intro m0 f; simp [alookup]
  | cons t ts ih =>
    intro m0 f
    simp only [List.foldl_cons, List.filter_cons]
    by_cases hk : key t = f
    · rw [if_pos (by simp [hk])]
      rw [ih]
      cases hfl : (ts.filter (fun u => decide (key u = f))).getLast? with
      | none =>
        have hemp := List.getLast?_eq_none_iff.mp hfl
        rw [hemp]
        simp only [List.getLast?_singleton]
        rw [← hk]
        exact alookup_upsert_self m0 (key t) (val t)
      | some u =>
        have hne : ts.filter (fun u => decide (key u = f)) ≠ [] := by
          intro hc
          rw [hc] at hfl
          simp at hfl
        obtain ⟨x, xs, hx⟩ := List.exists_cons_of_ne_nil hne
        rw [hx, List.getLast?_cons_cons]
        rw [hx] at hfl
        rw [hfl]
    · rw [if_neg (by simp [hk])]
      rw [ih]
      cases hfl : (ts.filter (fun u => decide (key u = f))).getLast? with
      | none =>
        simp only [hfl]
        exact alookup_upsert_ne m0 (key t) f (val t) hk
      | some u => simp only [hfl]

/-- Invariant of a per-bone frame map: duplicate-free frame keys, and
every stored keyframe carries the bone's name and its own key as frame
number. -/
def goodMap (name : String) (m : List (ℤ × VMDBoneKeyframe)) : Prop :=
  (m.map Prod.fst).Nodup ∧ ∀ p ∈ m, (p.2).boneName = name ∧ (p.2).frameNumber = p.1

theorem goodMap_foldl {α : Type} (name : String) (key : α → ℤ) (val : α → VMDBoneKeyframe)
    (hval : ∀ t, (val t).boneName = name ∧ (val t).frameNumber = key t)
    (ts : List α) (m0 : List (ℤ × VMDBoneKeyframe)) (h0 : goodMap name m0) :
    goodMap name (ts.foldl (fun m t => upsert m (key t) (val t)) m0) := by
  induction ts generalizing m0 with
  | nil => exact h0
  | cons t ts ih =>
    apply ih
    refine ⟨upsert_keys_nodup _ _ _ h0.1, ?_⟩
    intro p hp
    rcases upsert_mem _ _ _ p hp with h | h
    · exact h0.2 p h
    · rw [h]
      exact ⟨(hval t).1, (hval t).2⟩

theorem goodMap_buildBoneKeyframes (track : RetargetedBoneTrack)
    (posTrack : Option RetargetedPositionTrack) (fps : ℝ) (ts : List ℝ) :
    goodMap track.name (buildBoneKeyframes track posTrack fps ts) :=
  goodMap_foldl track.name (fun t => roundJS (t * fps))
    (fun t => rotKeyframe track posTrack t fps) (fun _ => ⟨rfl, rfl⟩) ts []
    ⟨List.nodup_nil, by simp⟩

theorem goodMap_buildPosOnlyKeyframes (pt : RetargetedPositionTrack) (fps : ℝ) :
    goodMap pt.name (buildPosOnlyKeyframes pt fps) :=
  goodMap_foldl pt.name (fun t => roundJS (t * fps))
    (fun t => posKeyframe pt t fps) (fun _ => ⟨rfl, rfl⟩) pt.times []
    ⟨List.nodup_nil, by simp⟩

/-- Invariant of the whole keyframe map: duplicate-free bone names, and
every per-bone map is good for its own key. -/
def goodKM (km : List (String × List (ℤ × VMDBoneKeyframe))) : Prop :=
  (km.map Prod.fst).Nodup ∧ ∀ e ∈ km, goodMap e.1 e.2

theorem goodKM_upsert (km : List (String × List (ℤ × VMDBoneKeyframe))) (k : String)
    (m : List (ℤ × VMDBoneKeyframe)) (h0 : goodKM km) (hm : goodMap k m) :
    goodKM (upsert km k m) := by
  refine ⟨upsert_keys_nodup _ _ _ h0.1, ?_⟩
  intro e he
  rcases upsert_mem _ _ _ e he with h | h
  · exact h0.2 e h
  · rw [h]
    exact hm

theorem goodKM_step1 (clip : RetargetedClip) (fps : ℝ)
    (tracks : List RetargetedBoneTrack) (km0 : List (String × List (ℤ × VMDBoneKeyframe)))
    (h0 : goodKM km0) :
    goodKM (tracks.foldl (fun km track =>
      upsert km track.name
        (buildBoneKeyframes track (alookup (positionTrackMap clip) track.name) fps
          (boneTimesOf track (alookup (positionTrackMap clip) track.name)))) km0) := by
  induction tracks generalizing km0 with
  | nil => exact h0
  | cons tr ts ih =>
    exact ih _ (goodKM_upsert _ _ _ h0 (goodMap_buildBoneKeyframes tr _ fps _))

theorem goodKM_step2 (fps : ℝ) (names : List String)
    (pts : List RetargetedPositionTrack) (km0 : List (String × List (ℤ × VMDBoneKeyframe)))
    (h0 : goodKM km0) :
    goodKM (pts.foldl (fun km pt =>
      if names.contains pt.name then km
      else upsert km pt.name (buildPosOnlyKeyframes pt fps)) km0) := by
  induction pts generalizing km0 with
  | nil => exact h0
  | cons pt ts ih =>
    by_cases hc : names.contains pt.name
    · simp only [List.foldl_cons, if_pos hc]
      exact ih _ h0
    · simp only [List.foldl_cons, if_neg hc]
      exact ih _ (goodKM_upsert _ _ _ h0 (goodMap_buildPosOnlyKeyframes pt fps))

theorem goodKM_keyframeMapOf (clip : RetargetedClip) (fps : ℝ) :
    goodKM (keyframeMapOf clip fps) := by
  unfold keyframeMapOf
  exact goodKM_step2 fps _ _ _
    (goodKM_step1 clip fps clip.boneTracks [] ⟨List.nodup_nil, by simp⟩)

theorem pairwise_flatMap_goodKM (km : List (String × List (ℤ × VMDBoneKeyframe)))
    (h : goodKM km) :
    (km.flatMap (fun e => e.2.map Prod.snd)).Pairwise
      (fun a b => a.boneName = b.boneName → a.frameNumber ≠ b.frameNumber) := by
  induction km with
  | nil => simp
  | cons e km' ih =>
    obtain ⟨k, m⟩ := e
    obtain ⟨hnd, hall⟩ := h
    simp only [List.map_cons, List.nodup_cons] at hnd
    have hgood : goodMap k m := hall (k, m) (List.mem_cons_self _ _)
    simp only [List.flatMap_cons]
    rw [List.pairwise_append]
    refine ⟨?_, ih ⟨hnd.2, fun e he => hall e (List.mem_cons_of_mem _ he)⟩, ?_⟩
    · have hpw : m.Pairwise (fun p q => p.1 ≠ q.1) := List.pairwise_map.mp hgood.1
      rw [List.pairwise_map]
      refine List.Pairwise.imp_of_mem ?_ hpw
      intro p q hp hq hne hname
      rw [(hgood.2 p hp).2, (hgood.2 q hq).2]
      exact hne
    · intro x hx y hy hname
      rcases List.mem_map.mp hx with ⟨p, hp, rfl⟩
      rcases List.mem_flatMap.mp hy with ⟨e', he', hy'⟩
      rcases List.mem_map.mp hy' with ⟨q, hq, rfl⟩
      exfalso
      apply hnd.1
      have hk : k = e'.1 := by
        rw [← (hgood.2 p hp).1, hname, ((hall e' (List.mem_cons_of_mem _ he')).2 q hq).1]
      rw [hk]
      exact List.mem_map_of_mem Prod.fst he'

theorem insertKF_perm (x : VMDBoneKeyframe) (l : List VMDBoneKeyframe) :
    (insertKF x l).Perm (x :: l) := by
  induction l with
  | nil => exact List.Perm.refl _
  | cons y t ih =>
    unfold insertKF
    split
    · exact List.Perm.refl _
    · exact (List.Perm.cons y ih).trans (List.Perm.swap x y t)

theorem sortKF_perm (l : List VMDBoneKeyframe) : (sortKF l).Perm l := by
  induction l with
  | nil => exact List.Perm.refl _
  | cons x t ih =>
    have : sortKF (x :: t) = insertKF x (sortKF t) := rfl
    rw [this]
    exact (insertKF_perm x (sortKF t)).trans (List.Perm.cons x ih)

theorem head_insertSorted (x : ℝ) (t : List ℝ) (z : ℝ)
    (h : (insertSorted x t).head? = some z) : z = x ∨ t.head? = some z := by
  cases t with
  | nil =>
    simp [insertSorted] at h
    left
    exact h.symm
  | cons a t' =>
    unfold insertSorted at h
    by_cases hxa : x ≤ a
    · rw [if_pos hxa] at h
      simp at h
      left
      exact h.symm
    · rw [if_neg hxa] at h
      simp at h
      right
      simp [h]

theorem chain'_insertSorted (x : ℝ) (l : List ℝ) (h : l.Chain' (· ≤ ·)) :
    (insertSorted x l).Chain' (· ≤ ·) := by
  induction l with
  | nil => simp [insertSorted]
  | cons y t ih =>
    unfold insertSorted
    by_cases hxy : x ≤ y
    · rw [if_pos hxy]
      exact List.Chain'.cons hxy h
    · rw [if_neg hxy]
      have ht : t.Chain' (· ≤ ·) := h.tail
      rw [List.chain'_cons']
      refine ⟨?_, ih ht⟩
      intro z hz
      rcases head_insertSorted x t z hz with hzx | hzt
      · rw [hzx]
        exact le_of_not_le hxy
      · rcases List.chain'_cons'.mp h with ⟨hhead, _⟩
        exact hhead z hzt

theorem chain'_sortR (l : List ℝ) : (sortR l).Chain' (· ≤ ·) := by
  induction l with
  | nil => simp [sortR]
  | cons x t ih =>
    have : sortR (x :: t) = insertSorted x (sortR t) := rfl
    rw [this]
    exact chain'_insertSorted x (sortR t) ih

/-- C10: in the final emitted keyframe list, no two records for the same
bone share a frame number (first conjunct), because each bone's records
come from a frame-keyed map in which a later iterated time with the same
rounded frame index replaces the earlier record (second conjunct: the
stored record at frame `f` is built from the LAST time in the iterated
list that rounds to `f`), and the iterated per-bone time list is
ascending (third conjunct), so "last" means "latest". -/
theorem c10_one_record_per_bone_and_frame (clip : RetargetedClip) (fps : ℝ) :
    (vmdKeyframes clip fps).Pairwise
      (fun a b => a.boneName = b.boneName → a.frameNumber ≠ b.frameNumber) ∧
    (∀ (track : RetargetedBoneTrack) (posTrack : Option RetargetedPositionTrack)
        (ts : List ℝ) (f : ℤ),
      alookup (buildBoneKeyframes track posTrack fps ts) f =
        ((ts.filter (fun t => decide (roundJS (t * fps) = f))).getLast?).map
          (fun t => rotKeyframe track posTrack t fps)) ∧
    (∀ (track : RetargetedBoneTrack) (posTrack : Option RetargetedPositionTrack),
      (boneTimesOf track posTrack).Chain' (· ≤ ·)) := by
  refine ⟨?_, ?_, ?_⟩
  · have hp := pairwise_flatMap_goodKM (keyframeMapOf clip fps) (goodKM_keyframeMapOf clip fps)
    unfold vmdKeyframes
    have hsymm : ∀ {a b : VMDBoneKeyframe},
        (a.boneName = b.boneName → a.frameNumber ≠ b.frameNumber) →
        (b.boneName = a.boneName → b.frameNumber ≠ a.frameNumber) := by
      intro a b h hn hf
      exact h hn.symm hf.symm
    exact ((sortKF_perm _).pairwise_iff hsymm).mpr hp
  · intro track posTrack ts f
    unfold buildBoneKeyframes
    rw [foldl_upsert_lookup (fun t => roundJS (t * fps))
      (fun t => rotKeyframe track posTrack t fps) ts [] f]
    cases (ts.filter (fun t => decide (roundJS (t * fps) = f))).getLast? with
    | none => simp [alookup]
    | some u => simp
  · intro track posTrack
    exact chain'_sortR _

/-! ## C1 — the 0°→360° X sweep -/

/-- X-axis curve: 0° at t = 0 s, 360° at t = 1 s. -/
noncomputable def curveX : Curve := ⟨[0, 1], [0, 360]⟩

/-- Constant-zero Y-axis curve on the same timeline. -/
noncomputable def curveY : Curve := ⟨[0, 1], [0, 0]⟩

/-- Constant-zero Z-axis curve on the same timeline. -/
noncomputable def curveZ : Curve := ⟨[0, 1], [0, 0]⟩

theorem roundTime_zero : roundTime 0 = 0 := by
  unfold roundTime roundJS
  rw [show (0 : ℝ) * 1000000 + 1 / 2 = 1 / 2 by norm_num]
  rw [show (⌊(1 : ℝ) / 2⌋ : ℤ) = 0 from by rw [Int.floor_eq_iff]; norm_num]
  norm_num

theorem roundTime_one : roundTime 1 = 1 := by
  unfold roundTime roundJS
  rw [show (1 : ℝ) * 1000000 + 1 / 2 = 1000000 + 1 / 2 by norm_num]
  rw [show (⌊(1000000 : ℝ) + 1 / 2⌋ : ℤ) = 1000000 from by rw [Int.floor_eq_iff]; norm_num]
  norm_num

theorem mergedTimes_eval : mergedTimes curveX curveY curveZ = [0, 1] := by
  unfold mergedTimes curveX curveY curveZ addRoundedTimes
  norm_num [addUnique, roundTime_zero, roundTime_one, sortR, insertSorted]

theorem ivX_at0 : interpolateValue [0, 1] [0, 360] 0 = 0 := by
  norm_num [interpolateValue]

theorem ivX_at1 : interpolateValue [0, 1] [0, 360] 1 = 360 := by
  norm_num [interpolateValue, List.getLastD]

theorem ivZ_at0 : interpolateValue [0, 1] [0, 0] 0 = 0 := by
  norm_num [interpolateValue]

theorem ivZ_at1 : interpolateValue [0, 1] [0, 0] 1 = 0 := by
  norm_num [interpolateValue, List.getLastD]

theorem degToRad_zero : degToRad 0 = 0 := by
  simp [degToRad]

theorem degToRad_360 : degToRad 360 = 2 * Real.pi := by
  unfold degToRad
  ring

theorem euler_id : eulerToQuaternionByOrder 0 0 0 "ZXY" = ⟨0, 0, 0, 1⟩ := by
  unfold eulerToQuaternionByOrder eulerToQuaternionZXY
  norm_num

theorem euler_2pi : eulerToQuaternionByOrder (2 * Real.pi) 0 0 "ZXY" = ⟨0, 0, 0, -1⟩ := by
  unfold eulerToQuaternionByOrder eulerToQuaternionZXY
  rw [if_neg (by simp)]
  rw [show 2 * Real.pi / 2 = Real.pi by ring]
  norm_num [Real.cos_pi, Real.sin_pi]

theorem slerp_id_id (t : ℝ) : slerp ⟨0, 0, 0, 1⟩ ⟨0, 0, 0, 1⟩ t = ⟨0, 0, 0, 1⟩ := by
  unfold slerp qdot
  norm_num [Real.sqrt_one]

theorem qte_id : quaternionToEuler ⟨0, 0, 0, 1⟩ = (0, 0, 0) := by
  unfold quaternionToEuler atan2
  norm_num [Real.arcsin_zero, Real.arctan_zero]

theorem midParams_two : midParams 2 = [1 / 2] := by
  unfold midParams
  rw [show Int.toNat 2 - 1 = 1 from rfl]
  rw [show List.range 1 = [0] from rfl]
  norm_num

theorem rotationSegment_eval :
    rotationSegment 0 (0, 0, 0) 1 (360, 0, 0) = ([1 / 2, 1], [0, 0, 0, 2 * Real.pi, 0, 0]) := by
  unfold rotationSegment
  rw [if_neg (by simp [isNaNr])]
  rw [if_pos (by norm_num)]
  rw [show |(360 : ℝ) - 0| = 360 by norm_num, show |(0 : ℝ) - 0| = 0 by norm_num]
  rw [show max (360 : ℝ) (max 0 0) = 360 by norm_num]
  dsimp only
  rw [show (⌈(360 : ℝ) / 180⌉ : ℤ) = 2 from by
    rw [show (360 : ℝ) / 180 = ((2 : ℤ) : ℝ) by norm_num, Int.ceil_intCast]]
  rw [degToRad_zero, degToRad_360, euler_id, euler_2pi, midParams_two]
  rw [show qdot ⟨0, 0, 0, 1⟩ ⟨0, 0, 0, -1⟩ = -1 by norm_num [qdot]]
  rw [if_pos (by norm_num)]
  rw [show qneg ⟨0, 0, 0, -1⟩ = ⟨0, 0, 0, 1⟩ by norm_num [qneg]]
  simp only [List.map_cons, List.map_nil, slerp_id_id, qte_id, List.flatMap_cons,
    List.flatMap_nil]
  norm_num

theorem interpolateRotations_eval :
    interpolateRotations curveX curveY curveZ
      = ([0, 1 / 2, 1], [0, 0, 0, 0, 0, 0, 2 * Real.pi, 0, 0]) := by
  unfold interpolateRotations
  rw [mergedTimes_eval]
  simp only [curveX, curveY, curveZ, List.map_cons, List.map_nil, ivX_at0, ivX_at1,
    ivZ_at0, ivZ_at1, List.zip_cons_cons, List.zip_nil_right]
  unfold rotationLoop
  rw [rotationSegment_eval]
  unfold rotationLoop
  simp [degToRad_zero]

theorem generateQuaternions_eval :
    generateQuaternions curveX curveY curveZ
      = ([0, 1 / 2, 1], [⟨0, 0, 0, 1⟩, ⟨0, 0, 0, 1⟩, ⟨0, 0, 0, 1⟩]) := by
  have s1 : unrollStep [] ((0 : ℝ), (0 : ℝ), (0 : ℝ)) = [⟨0, 0, 0, 1⟩] := by
    unfold unrollStep
    dsimp only
    rw [euler_id]
    rfl
  have s2 : unrollStep [⟨0, 0, 0, 1⟩] ((0 : ℝ), (0 : ℝ), (0 : ℝ))
      = [⟨0, 0, 0, 1⟩, ⟨0, 0, 0, 1⟩] := by
    unfold unrollStep
    dsimp only
    rw [euler_id]
    simp only [List.getLast?_singleton]
    rw [if_neg (by norm_num [qdot])]
    rfl
  have s3 : unrollStep [⟨0, 0, 0, 1⟩, ⟨0, 0, 0, 1⟩] ((2 * Real.pi : ℝ), (0 : ℝ), (0 : ℝ))
      = [⟨0, 0, 0, 1⟩, ⟨0, 0, 0, 1⟩, ⟨0, 0, 0, 1⟩] := by
    unfold unrollStep
    dsimp only
    rw [euler_2pi]
    rw [show ([⟨0, 0, 0, 1⟩, ⟨0, 0, 0, 1⟩] : List QuatR).getLast? = some ⟨0, 0, 0, 1⟩ from rfl]
    dsimp only
    rw [if_pos (by norm_num [qdot])]
    norm_num [qneg]
  unfold generateQuaternions
  rw [interpolateRotations_eval]
  dsimp only
  rw [if_neg (by simp)]
  rw [if_neg (by simp)]
  rw [show toTriples [0, 0, 0, 0, 0, 0, 2 * Real.pi, 0, 0]
      = [((0 : ℝ), (0 : ℝ), (0 : ℝ)), ((0 : ℝ), (0 : ℝ), (0 : ℝ)),
         ((2 * Real.pi : ℝ), (0 : ℝ), (0 : ℝ))] from rfl]
  simp only [List.foldl_cons, List.foldl_nil]
  rw [s1, s2, s3]

/-- C1: on the X-axis key pair 0° → 360° over one second with constant
zero Y and Z, the assembled rotation track does contain exactly three
keys at t ∈ {0, 0.5, 1}, but the middle quaternion is the IDENTITY
`(0, 0, 0, 1)` — not `(1, 0, 0, 0)` or its negation as the claim (and
the code's own "properly handles rotations >= 180 degrees" comment)
require: both endpoint Euler keys map to ±identity quaternions and the
unrolling inside the subdivision makes them equal, so the whole 360°
sweep collapses to no rotation at all. -/
theorem c1_360_sweep_collapses :
    generateQuaternions curveX curveY curveZ
      = ([0, 0.5, 1], [⟨0, 0, 0, 1⟩, ⟨0, 0, 0, 1⟩, ⟨0, 0, 0, 1⟩]) ∧
    (⟨0, 0, 0, 1⟩ : QuatR) ≠ ⟨1, 0, 0, 0⟩ ∧
    (⟨0, 0, 0, 1⟩ : QuatR) ≠ ⟨-1, 0, 0, 0⟩ := by
  refine ⟨?_, ?_, ?_⟩
  · rw [generateQuaternions_eval]
    norm_num
  · intro h
    have hx := congrArg QuatR.x h
    norm_num at hx
  · intro h
    have hx := congrArg QuatR.x h
    norm_num at hx

end MixamoMMD
